import Mathlib

/-!
Verification development for the digital-health-records backend.

The definitions below are a shallow embedding of the repository's upload
pipeline (src/controllers/healthRecordController.js) and of the services it
drives (src/services/documentAIService.js, src/services/retellService.js,
the Groq structuring service, and the HealthRecord mongoose schema).
External HTTP calls (Document AI, Retell, Groq, S3, JSON.parse on model
output) are modelled as oracle parameters: the embedded functions compute,
from the oracle outcomes, exactly what the JavaScript computes from the
corresponding awaited results.  Wall-clock time inside the call-status poll
loop is idealized: each iteration sleeps exactly 5000 ms and the status
fetch itself is instantaneous, so elapsed time advances by 5000 ms per
iteration; this idealization maximizes the number of loop iterations, so
every upper bound proved here covers the real code as well.
-/

/-- Status string of a Retell call together with the transcript data that
`getCallStatus` (src/services/retellService.js) extracts from the API
response.  `transcript` is `none` when the API returned no (or an empty)
transcript, mirroring the guard `if (response.data.transcript)`;
`transcriptObject` is `none` when `transcript_object` was absent or not an
array.  `callAnalysisSuccessful` models `call_analysis.call_successful`. -/
structure CallData where
  status : String
  transcript : Option String
  transcriptObject : Option (List (String × String))
  recordingUrl : Option String
  callAnalysisSuccessful : Bool
deriving DecidableEq

/-- The controller treats a call as finished when
`['ended', 'error'].includes(callStatus.status)`. -/
def isTerminalStr (s : String) : Bool :=
  s == "ended" || s == "error"

/-- Truthiness of a JS string value modelled as `Option String`:
`none` is `undefined`/`null`, `some ""` is the empty string (falsy). -/
def strTruthy : Option String → Bool
  | none => false
  | some s => s != ""

/-- Truthiness of `callStatus.transcriptObject || callStatus.transcript`
(src/controllers/healthRecordController.js line 239): a present array
(even empty) is truthy, otherwise the transcript string decides. -/
def hasTranscriptData (cd : CallData) : Bool :=
  cd.transcriptObject.isSome || strTruthy cd.transcript

/-- One status fetch may fail (`getCallStatus` throws), in which case the
poll loop logs and keeps polling; on success it yields the call data. -/
def isTerminalFetch (e : Except Unit CallData) : Bool :=
  match e with
  | .ok cd => isTerminalStr cd.status
  | .error _ => false

/-- The poll ceiling: `const maxWaitTime = 3 * 60 * 1000` (line 220). -/
def maxWaitTime : Nat := 3 * 60 * 1000

/-- The fixed inter-poll delay: `setTimeout(resolve, 5000)` (line 226). -/
def pollIntervalMs : Nat := 5000

/-- Result of the `while (!callEnded && (Date.now() - startTime) < maxWaitTime)`
loop (lines 224-262): how many status fetches were made, whether a terminal
status was observed (`callEnded`), the stored full call data
(`completeCallData`, set only on a terminal observation inside the loop),
and the last successfully fetched call data (the JS variable `callStatus`). -/
structure LoopResult where
  fetchCount : Nat
  callEnded : Bool
  completeCallData : Option CallData
  lastObserved : Option CallData
deriving DecidableEq

/-- Model of the poll loop of `uploadHealthRecord` (lines 224-262).
`i` numbers the status fetches (the oracle `f i` is the outcome of the
i-th `getCallStatus` call), `elapsed` is the idealized elapsed time when
the loop condition is evaluated, and `last` is the current value of the
JS variable `callStatus`.  Each iteration sleeps `pollIntervalMs`, fetches,
and stops as soon as the fetched status is terminal; a failed fetch is
caught and polling continues. -/
def pollLoop (f : Nat → Except Unit CallData) (i : Nat) (elapsed : Nat)
    (last : Option CallData) : LoopResult :=
  if elapsed < maxWaitTime then
    match f i with
    | .error _ => pollLoop f (i + 1) (elapsed + pollIntervalMs) last
    | .ok cd =>
      if isTerminalStr cd.status then
        ⟨i + 1, true, some cd, some cd⟩
      else
        pollLoop f (i + 1) (elapsed + pollIntervalMs) (some cd)
  else
    ⟨i, false, none, last⟩
termination_by maxWaitTime - elapsed
decreasing_by
  all_goals
    have h1 : pollIntervalMs = 5000 := rfl
    omega

/-- The number of whole poll intervals in the ceiling: 36. -/
def maxPollIterations : Nat := maxWaitTime / pollIntervalMs

/-- Iteration-counted form of the poll loop: since each iteration advances
the idealized clock by exactly `pollIntervalMs`, the guard
`elapsed < maxWaitTime` means exactly that iteration budget remains; `b` is
that remaining budget.  `pollLoop_agrees` below proves this form equal to
the clock-guarded `pollLoop`, and it is structurally recursive so concrete
runs evaluate. -/
def pollLoopFuel (f : Nat → Except Unit CallData) :
    Nat → Nat → Option CallData → LoopResult
  | 0, i, last => ⟨i, false, none, last⟩
  | b + 1, i, last =>
    match f i with
    | .error _ => pollLoopFuel f b (i + 1) last
    | .ok cd =>
      if isTerminalStr cd.status then
        ⟨i + 1, true, some cd, some cd⟩
      else
        pollLoopFuel f b (i + 1) (some cd)

/-- The poll phase as entered by the controller: fetch numbering and the
elapsed clock both start at zero, no call status has been observed, and the
full 36-iteration window is available. -/
def pollPhase (f : Nat → Except Unit CallData) : LoopResult :=
  pollLoopFuel f maxPollIterations 0 none

/-- After the loop, the controller makes one final `getCallStatus` attempt
exactly when the loop did not observe a terminal status (lines 264-282). -/
def finalFetchCount (f : Nat → Except Unit CallData) : Nat :=
  if (pollPhase f).callEnded then 0 else 1

/-- Total number of `getCallStatus` calls made for one polled call:
the loop fetches plus the optional final fetch. -/
def totalStatusFetches (f : Nat → Except Unit CallData) : Nat :=
  (pollPhase f).fetchCount + finalFetchCount f

/-- Whether the last successfully observed status (if any) is terminal. -/
def lastObservedTerminal (f : Nat → Except Unit CallData) : Bool :=
  match (pollPhase f).lastObserved with
  | some cd => isTerminalStr cd.status
  | none => false

/-- Specification device (not from the source): scan the fetch oracle from
index `i` with `b` fetches of budget, returning the first index holding a
successful terminal fetch together with its call data. -/
def scanTerm (f : Nat → Except Unit CallData) : Nat → Nat → Option (Nat × CallData)
  | _, 0 => none
  | i, b + 1 =>
    match f i with
    | .ok cd => if isTerminalStr cd.status then some (i, cd) else scanTerm f (i + 1) b
    | .error _ => scanTerm f (i + 1) b

/-- Specification device: the last successful fetch in the window starting
at index `i` of length `b`, given the previously observed value `last`. -/
def lastObs (f : Nat → Except Unit CallData) : Nat → Nat → Option CallData → Option CallData
  | _, 0, last => last
  | i, b + 1, last =>
    match f i with
    | .ok cd => lastObs f (i + 1) b (some cd)
    | .error _ => lastObs f (i + 1) b last

/-- One extracted page, as produced by the Document AI service
(src/services/documentAIService.js): page number plus page text. -/
structure DocPage where
  pageNumber : Nat
  text : String
deriving DecidableEq

/-- Extraction output `{ text, pages }` returned by `parsePdfDocument` and
`parseHandwrittenDocument`. -/
structure ParsedData where
  text : String
  pages : List DocPage
deriving DecidableEq

/-- The canned fallback of `getMockPdfData` (documentAIService.js lines
191-201). -/
def getMockPdfData : ParsedData :=
  { text := "This is mock parsed PDF content. In a real implementation, this would be the extracted text from the document.",
    pages := [⟨1, "Patient Name: John Doe\nDOB: 01/15/1980\nMedical Record #: MRN12345\nDoctor: Dr. Jane Smith\nDiagnosis: Hypertension\nMedications: Lisinopril 10mg daily"⟩] }

/-- The canned fallback of `getMockHandwrittenData` (documentAIService.js
lines 204-214). -/
def getMockHandwrittenData : ParsedData :=
  { text := "This is mock parsed handwritten content. In a real implementation, this would be the extracted text from the document.",
    pages := [⟨1, "Patient: Sarah Johnson\nDate: 03/10/2023\nChief Complaint: Headache\nVital Signs: BP 120/80, HR 72\nAssessment: Migraine\nPlan: Sumatriptan 50mg as needed"⟩] }

/-- Model of `parsePdfDocument` (documentAIService.js lines 36-94).  The
whole body is wrapped in try/catch and the catch returns `getMockPdfData()`,
so the function is total over the external Document AI outcome and never
raises to its caller. -/
def parsePdfDocument (external : Except Unit ParsedData) : ParsedData :=
  match external with
  | .ok d => d
  | .error _ => getMockPdfData

/-- Model of `parseHandwrittenDocument` (documentAIService.js lines
101-170); same fail-soft shape with the handwritten fallback. -/
def parseHandwrittenDocument (external : Except Unit ParsedData) : ParsedData :=
  match external with
  | .ok d => d
  | .error _ => getMockHandwrittenData

/-- First index of character `c`, modelling JS `String.prototype.indexOf`
restricted to one character (groqService `responseContent.indexOf` on the
opening brace). -/
def idxOf (c : Char) : List Char → Option Nat
  | [] => none
  | x :: xs => if x = c then some 0 else (idxOf c xs).map (· + 1)

/-- Last index of character `c`, modelling JS `String.prototype.lastIndexOf`
restricted to one character. -/
def lastIdxOf (c : Char) (cs : List Char) : Option Nat :=
  (idxOf c cs.reverse).map (fun i => cs.length - 1 - i)

/-- The JSON-substring heuristic of `processHealthRecord` (groqService lines
86-94): take the substring from the first opening brace to one past the last
closing brace, provided `jsonStart >= 0 && jsonEnd > jsonStart`.  The greedy
regex fallback of `processTranscript` (groqService line 243) selects exactly
the same substring whenever both braces occur. -/
def jsonExtract (cs : List Char) : Option (List Char) :=
  match idxOf '\x7b' cs, lastIdxOf '\x7d' cs with
  | some i, some j => if i < j + 1 then some ((cs.drop i).take (j + 1 - i)) else none
  | _, _ => none

/-- String wrapper around `jsonExtract`. -/
def jsonExtractS (s : String) : Option String :=
  (jsonExtract s.toList).map (fun l => String.mk l)

/-- Specification device: brace-depth scan.  `braceScan cs d` returns the
final depth starting from depth `d`, or `none` if the depth ever dips below
zero.  A string of balanced object delimiters scans from 0 back to 0. -/
def braceScan : List Char → Nat → Option Nat
  | [], d => some d
  | c :: cs, d =>
    if c = '\x7b' then braceScan cs (d + 1)
    else if c = '\x7d' then (if d = 0 then none else braceScan cs (d - 1))
    else braceScan cs d

/-- Specification device: the object delimiters of `cs` are balanced.  Every
well-formed JSON object serialization satisfies this, so a string violating
it cannot parse as a JSON object. -/
def braceBalanced (cs : List Char) : Bool :=
  braceScan cs 0 == some 0

/-- Patient block of the structured record: the only part of the structured
data the controller reads or mutates (`structuredData.patient.name` and
`structuredData.patient.phone`, healthRecordController.js lines 366-372). -/
structure PatientData where
  name : String
  phone : String
deriving DecidableEq

/-- Structured clinical record produced by the Groq structuring service.
The controller manipulates only `patient` and readers inspect the `error`
marker; every other key of the (schemaless) JSON object is modelled
opaquely as a list of flattened key/value string pairs. -/
structure StructuredData where
  patient : Option PatientData
  error : Option String
  extraFields : List (String × String)
deriving DecidableEq

/-- The `patientContext` argument built by the controller for the Groq
calls (healthRecordController.js lines 294-299). -/
structure GroqContext where
  patientName : String
  patientPhone : String
  documentType : String
  description : String
deriving DecidableEq

/-- Model of `getMockStructuredData` (groqService lines 129-183): a fixed
skeleton record carrying the patient context, with no `error` key.  The
constant nested payload (provider, diagnosis, medications, labs, vitals,
allergies, history) is flattened into the opaque field list. -/
def getMockStructuredData (ctx : GroqContext) : StructuredData :=
  { patient := some ⟨(if ctx.patientName = "" then "John Doe" else ctx.patientName),
      (if ctx.patientPhone = "" then "555-123-4567" else ctx.patientPhone)⟩,
    error := none,
    extraFields :=
      [("patient.dateOfBirth", "1980-05-15"),
       ("patient.medicalRecordNumber", "MRN12345678"),
       ("provider.name", "Dr. Sarah Johnson"),
       ("provider.specialty", "Internal Medicine"),
       ("provider.clinic", "HealthCare Medical Center"),
       ("diagnosis.primary", "Essential Hypertension (I10)"),
       ("diagnosis.secondary", "Hyperlipidemia (E78.5); Type 2 Diabetes (E11.9)"),
       ("medications", "Lisinopril 10mg once daily; Atorvastatin 20mg once daily at bedtime"),
       ("treatmentPlan", "Continue current medications. Low sodium diet. Exercise 30 minutes daily. Follow up in 3 months."),
       ("labResults", "HbA1c 6.8 percent; Total Cholesterol 195 mg/dL"),
       ("vitalSigns", "BP 138/85 mmHg; HR 72 bpm"),
       ("allergies", "Penicillin; Sulfa drugs"),
       ("medicalHistory", "Patient has a history of hypertension for 5 years and hyperlipidemia for 3 years. Family history of cardiovascular disease.")] }

/-- Outcome of the Groq chat-completions request made by
`processHealthRecord`: the API key is missing, the HTTP call failed, or the
model answered with some content string. -/
inductive GroqApiOutcome
  | noKey
  | apiFail
  | content (s : String)
deriving DecidableEq

/-- The error object built when the model content cannot be parsed
(groqService lines 100-103). -/
def unparsableStructuredData (raw : String) : StructuredData :=
  { patient := none,
    error := some "Failed to parse AI response into structured data",
    extraFields := [("rawResponse", raw)] }

/-- Model of `processHealthRecord` (groqService lines 16-124).  `parse` is
the oracle for `JSON.parse` restricted to strings that denote structured
records.  Missing key and API failure both fall back to the mock skeleton;
on content, the substring between the first and last braces is parsed (the
whole content when no braces are found), and a parse failure yields the
error-marked object.  The function never raises to its caller. -/
def processHealthRecord (parse : String → Option StructuredData)
    (api : GroqApiOutcome) (ctx : GroqContext) : StructuredData :=
  match api with
  | .noKey => getMockStructuredData ctx
  | .apiFail => getMockStructuredData ctx
  | .content s =>
    let attempt := match jsonExtractS s with
      | some j => parse j
      | none => parse s
    match attempt with
    | some sd => sd
    | none => unparsableStructuredData s

/-- One correction entry `{field, incorrect, correct}` extracted from the
verification-call transcript.  Absent JSON keys are modelled as the empty
string, matching how the controller only tests truthiness. -/
structure Correction where
  field : String
  incorrect : String
  correct : String
deriving DecidableEq

/-- The JSON object the transcript-analysis model is asked to produce
(groqService lines 204-212); each key may be absent. -/
structure TranscriptJson where
  corrections : Option (List Correction)
  additionalInfo : Option String
  summary : Option String
  verificationComplete : Option Bool
deriving DecidableEq

/-- Return value of `processTranscript` after its key-by-key defaulting
(groqService lines 251-257). -/
structure TranscriptResult where
  corrections : List Correction
  additionalInfo : String
  summary : String
  verificationComplete : Bool
deriving DecidableEq

/-- Outcome of the transcript-analysis Groq request: the HTTP call failed
(in which case `processTranscript` rethrows), or the content parsed to a
JSON object (directly or via the greedy brace regex), or no JSON could be
recovered. -/
inductive TranscriptOutcome
  | apiFail
  | parsed (tr : TranscriptJson)
  | unparsable
deriving DecidableEq

/-- Model of `processTranscript` (groqService lines 191-272): API failures
are rethrown; a parsed object is returned with per-key defaults; an
unparsable content yields the fixed parse-failure result (lines 260-266). -/
def processTranscript (o : TranscriptOutcome) : Except Unit TranscriptResult :=
  match o with
  | .apiFail => .error ()
  | .parsed tr =>
    .ok { corrections := tr.corrections.getD [],
          additionalInfo := tr.additionalInfo.getD "",
          summary := tr.summary.getD "",
          verificationComplete := tr.verificationComplete.getD false }
  | .unparsable =>
    .ok { corrections := [],
          additionalInfo := "Error: Could not parse transcript analysis",
          summary := "Verification analysis failed",
          verificationComplete := false }

/-- Return value of `processCallTranscript` (retellService.js lines
277-369), restricted to the fields the controller reads.  Note that the
source reads `result.verificationSuccessful` from the `processTranscript`
result although that result only carries `verificationComplete`, so the
first disjunct of `verificationSuccessful` is always undefined and the
value reduces to `callData.callAnalysis?.call_successful || false`.
`transcriptAnalysisSummary` models `transcriptResult.transcriptAnalysis?.summary`. -/
structure PCTResult where
  success : Bool
  verificationSuccessful : Bool
  corrections : List Correction
  additionalInfo : String
  transcriptAnalysisSummary : Option String
deriving DecidableEq

/-- Model of `processCallTranscript` (retellService.js lines 277-369): with
no call data or no transcript data it returns the empty failure result;
otherwise it runs `processTranscript` on the (formatted) transcript, its
own catch converting a throw into the failure result.  It never raises. -/
def processCallTranscript (callData : Option CallData) (o : TranscriptOutcome) : PCTResult :=
  match callData with
  | none => ⟨false, false, [], "", none⟩
  | some cd =>
    if hasTranscriptData cd then
      match processTranscript o with
      | .error _ => ⟨false, false, [], "", none⟩
      | .ok tr => ⟨true, cd.callAnalysisSuccessful, tr.corrections, tr.additionalInfo, some tr.summary⟩
    else ⟨false, false, [], "", none⟩

/-- The `verificationCall` sub-document of the HealthRecord schema
(src/unnamed/part_002 lines 58-108) with its schema defaults. -/
structure VerificationCallState where
  callId : Option String
  status : String
  endTimeSet : Bool
  transcript : Option String
  transcriptObject : Option (List (String × String))
  recordingUrl : Option String
  verificationComplete : Bool
  corrections : List Correction
  additionalInfo : String
  summary : String
deriving DecidableEq

/-- Schema defaults of the `verificationCall` sub-document, as set when the
record is created with `verificationCall: { status: 'not_initiated' }`. -/
def initialVerificationCall : VerificationCallState :=
  ⟨none, "not_initiated", false, none, none, none, false, [], "", ""⟩

/-- Every `processingStatus` value that some write site of the controller
can store.  The first six are the values the claims discuss;
`verification_ended_no_transcript` is the extra literal written by
`getCallVerificationStatus` (healthRecordController.js line 772). -/
inductive ProcessingStatus
  | uploaded
  | document_ai_complete
  | verification_initiated
  | verification_ended
  | verification_complete
  | processing_complete
  | verification_ended_no_transcript
deriving DecidableEq

/-- The persisted health record, restricted to the fields the upload
pipeline and the verification-status endpoint read or write.  The
`docAISource` field is `processingMetadata.timeline.documentAI.source`. -/
structure HealthRecord where
  title : String
  description : String
  documentType : String
  patientName : String
  patientPhone : String
  extractedData : ParsedData
  docAISource : String
  structuredData : Option StructuredData
  processingStatus : ProcessingStatus
  vc : VerificationCallState
  fileUrl : Option String
  storageLocation : Option String
deriving DecidableEq

/-- The upload request fields the pipeline consumes (absent body fields are
the empty string, matching the `|| fallback` normalizations). -/
structure UploadInput where
  title : String
  description : String
  documentType : String
  patientName : String
  patientPhone : String
  storedFileName : String
deriving DecidableEq

/-- Return value of `initiateVerificationCall` (retellService.js lines
169-174), restricted to the fields the controller persists. -/
structure InitResult where
  callId : String
  status : String
deriving DecidableEq

/-- Oracles for the external effects of one upload-pipeline run. -/
structure PipelineOracles where
  docAI : Except Unit ParsedData
  callInit : Except Unit InitResult
  fetches : Nat → Except Unit CallData
  groqApi : GroqApiOutcome
  jsonParse : String → Option StructuredData
  transcriptOutcome : TranscriptOutcome
  s3Upload : Except Unit String

/-- Whitespace class used by the JS `String.prototype.trim` calls. -/
def isJsWhitespace (c : Char) : Bool :=
  c = ' ' || c = '\t' || c = '\n' || c = '\r'

/-- Model of JS `String.prototype.trim`: drop leading and trailing
whitespace. -/
def strTrim (s : String) : String :=
  String.mk (((s.toList.dropWhile isJsWhitespace).reverse.dropWhile isJsWhitespace).reverse)

/-- The guard `patientPhone && patientPhone.trim() !== ""`
(healthRecordController.js line 173). -/
def phoneProvided (inp : UploadInput) : Bool :=
  inp.patientPhone != "" && strTrim inp.patientPhone != ""

/-- The record created right after extraction (healthRecordController.js
lines 143-166), including the `|| fallback` defaults and the initial
`document_ai_complete` status. -/
def createRecord (inp : UploadInput) (parsedData : ParsedData) : HealthRecord :=
  { title := if inp.title = "" then "Untitled Health Record" else inp.title,
    description := inp.description,
    documentType := if inp.documentType = "" then "Medical Report" else inp.documentType,
    patientName := inp.patientName,
    patientPhone := inp.patientPhone,
    extractedData := parsedData,
    docAISource := "google",
    structuredData := none,
    processingStatus := .document_ai_complete,
    vc := initialVerificationCall,
    fileUrl := none,
    storageLocation := none }

/-- Output of the verification-call initiation step. -/
structure Step1Out where
  record : HealthRecord
  statusWrites : List ProcessingStatus
  initiateCount : Nat
  verificationCallId : Option String

/-- STEP 1 of `uploadHealthRecord` (lines 170-206): with a provided phone
the controller calls `initiateVerificationCall`; on success it persists the
call id, the returned status and the `verification_initiated` status; a
throw is caught and the pipeline continues without a call. -/
def step1Verification (inp : UploadInput) (callInit : Except Unit InitResult)
    (r : HealthRecord) : Step1Out :=
  if phoneProvided inp then
    match callInit with
    | .ok ir =>
      ⟨{ r with
          vc := { r.vc with callId := some ir.callId, status := ir.status },
          processingStatus := .verification_initiated },
        [.verification_initiated], 1, some ir.callId⟩
    | .error _ => ⟨r, [], 1, none⟩
  else ⟨r, [], 0, none⟩

/-- Output of the poll step: the possibly updated record, the status writes
it issued, the number of `getCallStatus` calls, and the controller-local
transcript variables (lines 209-213). -/
structure Step2Out where
  record : HealthRecord
  statusWrites : List ProcessingStatus
  fetchCount : Nat
  callTranscript : Option String
  callTranscriptObject : Option (List (String × String))
  callRecordingUrl : Option String
  completeCallData : Option CallData

/-- STEP 2 of `uploadHealthRecord` (lines 215-283): guarded by a truthy
`verificationCallId`, the bounded poll loop runs; a terminal observation
with transcript data persists the transcript and the `verification_ended`
status; on timeout one final status fetch captures whatever is available
without a status write. -/
def step2Poll (fetches : Nat → Except Unit CallData) (vcid : Option String)
    (r : HealthRecord) : Step2Out :=
  match vcid with
  | none => ⟨r, [], 0, none, none, none, none⟩
  | some cid =>
    if cid = "" then ⟨r, [], 0, none, none, none, none⟩
    else
      let lr := pollPhase fetches
      if lr.callEnded then
        match lr.completeCallData with
        | some cd =>
          if hasTranscriptData cd then
            let vc2 :=
              { r.vc with
                status := cd.status,
                endTimeSet := true,
                transcript := cd.transcript,
                transcriptObject := cd.transcriptObject,
                recordingUrl := cd.recordingUrl }
            ⟨{ r with
                vc := vc2,
                processingStatus := .verification_ended },
              [.verification_ended], lr.fetchCount, cd.transcript, cd.transcriptObject,
              cd.recordingUrl, some cd⟩
          else ⟨r, [], lr.fetchCount, none, none, none, some cd⟩
        | none => ⟨r, [], lr.fetchCount, none, none, none, none⟩
      else
        match fetches lr.fetchCount with
        | .ok cd =>
          if hasTranscriptData cd then
            ⟨r, [], lr.fetchCount + 1, cd.transcript, cd.transcriptObject,
              cd.recordingUrl, some cd⟩
          else ⟨r, [], lr.fetchCount + 1, none, none, none, some cd⟩
        | .error _ => ⟨r, [], lr.fetchCount + 1, none, none, none, none⟩

/-- The Groq context the controller builds (lines 294-299). -/
def groqContext (inp : UploadInput) : GroqContext :=
  ⟨if inp.patientName = "" then "Not provided" else inp.patientName,
   if inp.patientPhone = "" then "Not provided" else inp.patientPhone,
   if inp.documentType = "" then "Medical Record" else inp.documentType,
   inp.description⟩

/-- Application of one transcript correction inside the upload pipeline
(lines 356-375): guarded by truthy `field` and `correct`, an allow-listed
field is written onto the record and mirrored into
`structuredData.patient` when that object exists; all other corrections
change nothing here. -/
def applyCorrection (r : HealthRecord) (sd : StructuredData) (c : Correction) :
    HealthRecord × StructuredData :=
  if c.field ≠ "" ∧ c.correct ≠ "" then
    if c.field = "patientName" ∨ c.field = "patientPhone" then
      let r2 := if c.field = "patientName" then { r with patientName := c.correct }
        else { r with patientPhone := c.correct }
      let sd2 := match sd.patient with
        | some p =>
          if c.field = "patientName" then { sd with patient := some { p with name := c.correct } }
          else { sd with patient := some { p with phone := c.correct } }
        | none => sd
      (r2, sd2)
    else (r, sd)
  else (r, sd)

/-- The `for (const correction of transcriptResult.corrections)` loop. -/
def applyCorrections (r : HealthRecord) (sd : StructuredData)
    (cs : List Correction) : HealthRecord × StructuredData :=
  cs.foldl (fun p c => applyCorrection p.1 p.2 c) (r, sd)

/-- Output of the transcript-analysis step. -/
structure Step4Out where
  record : HealthRecord
  structuredData : StructuredData
  transcriptResult : Option PCTResult
  analysisUpdateRan : Bool

/-- STEP 4 of `uploadHealthRecord` (lines 330-390): runs only when the
controller holds transcript data; a missing `completeCallData` is
synthesized with status `ended`; the corrections are applied and the
verification outcome persisted only when the corrections list is
non-empty (`processCallTranscript` never throws, so the catch is dead).
`step4CallData` is the `completeCallData` fallback synthesized with status
`ended` when the loop captured transcript variables but no full call data
(lines 335-343). -/
def step4CallData (s2 : Step2Out) : CallData :=
  match s2.completeCallData with
  | some cd => cd
  | none => ⟨"ended", s2.callTranscript, s2.callTranscriptObject, s2.callRecordingUrl, false⟩

/-- STEP 4 of `uploadHealthRecord` (lines 330-390), continued: runs the
transcript analysis and applies its corrections. -/
def step4Transcript (o : TranscriptOutcome) (s2 : Step2Out) (r : HealthRecord)
    (sd : StructuredData) : Step4Out :=
  if s2.callTranscriptObject.isSome || strTruthy s2.callTranscript then
    let pct := processCallTranscript (some (step4CallData s2)) o
    if pct.corrections = [] then ⟨r, sd, some pct, false⟩
    else
      let rs := applyCorrections r sd pct.corrections
      let vc2 :=
        { rs.1.vc with
          verificationComplete := pct.verificationSuccessful,
          corrections := pct.corrections,
          additionalInfo := pct.additionalInfo,
          summary := pct.transcriptAnalysisSummary.getD "" }
      let r2 := { rs.1 with vc := vc2 }
      ⟨r2, rs.2, some pct, true⟩
  else ⟨r, sd, none, false⟩

/-- STEP 5 (lines 399-420): a successful S3 upload yields the remote URL; a
failure falls back to the local `/uploads/` path of the stored file. -/
def step5S3 (s3 : Except Unit String) (storedFileName : String) : String :=
  match s3 with
  | .ok url => url
  | .error _ => "/uploads/" ++ storedFileName

/-- Substring test, modelling JS `String.prototype.includes`. -/
def containsSubstr (s pat : String) : Bool :=
  (s.toList.tails).any (fun t => pat.toList.isPrefixOf t)

/-- Everything one upload-pipeline run produces that the claims inspect:
the final persisted record, the ordered list of `processingStatus` writes,
how many times each Retell entry point was called, the transcript-analysis
outcome, whether the analysis-outcome update ran, and that archival was
attempted. -/
structure PipelineOut where
  record : HealthRecord
  statusWrites : List ProcessingStatus
  initiateCount : Nat
  fetchCount : Nat
  transcriptResult : Option PCTResult
  analysisUpdateRan : Bool
  s3Attempted : Bool

/-- The upload pipeline of `uploadHealthRecord` (healthRecordController.js
lines 25-470) over its effect oracles: extraction (whose own catch makes it
total, leaving the controller catch of lines 124-135 unreachable and
`documentAISource` always `google`), record creation, conditional call
initiation, bounded poll, structuring, transcript analysis with correction
application, archival, and the final consolidated update with a terminal
status (line 432). -/
def uploadPipeline (inp : UploadInput) (o : PipelineOracles) : PipelineOut :=
  let parsedData := parsePdfDocument o.docAI
  let r0 := createRecord inp parsedData
  let s1 := step1Verification inp o.callInit r0
  let s2 := step2Poll o.fetches s1.verificationCallId s1.record
  let sd0 := processHealthRecord o.jsonParse o.groqApi (groqContext inp)
  let s4 := step4Transcript o.transcriptOutcome s2 s2.record sd0
  let fileUrl := step5S3 o.s3Upload inp.storedFileName
  let storageLocation := if containsSubstr fileUrl "amazonaws.com" then "s3" else "local"
  let finalStatus := if s4.transcriptResult.isSome then ProcessingStatus.verification_complete
    else ProcessingStatus.processing_complete
  let rF :=
    { s4.record with
      structuredData := some s4.structuredData,
      fileUrl := some fileUrl,
      storageLocation := some storageLocation,
      processingStatus := finalStatus }
  ⟨rF, [ProcessingStatus.document_ai_complete] ++ s1.statusWrites ++ s2.statusWrites
    ++ [finalStatus], s1.initiateCount, s2.fetchCount, s4.transcriptResult,
    s4.analysisUpdateRan, true⟩

/-- The partial update object assembled by `getCallVerificationStatus`
(healthRecordController.js lines 701-818).  Each field is `some v` exactly
when the endpoint writes value `v` to the corresponding record path; the
`structuredDataWrite` field witnesses that the endpoint never writes
`structuredData`. -/
structure StatusUpdate where
  vcStatus : Option String := none
  vcEndTimeSet : Bool := false
  vcTranscript : Option (Option String) := none
  vcTranscriptObject : Option (Option (List (String × String))) := none
  vcRecordingUrl : Option (Option String) := none
  vcVerificationComplete : Option Bool := none
  vcCorrections : Option (List Correction) := none
  vcAdditionalInfo : Option String := none
  vcSummary : Option String := none
  processingStatus : Option ProcessingStatus := none
  patientName : Option String := none
  patientPhone : Option String := none
  description : Option String := none
  structuredDataWrite : Option StructuredData := none
deriving DecidableEq

/-- Correction handling in the endpoint (lines 751-760): allow-listed
fields are written onto the top level of the update object with no
truthiness guard on `correct`; everything else is left alone. -/
def applyEndpointCorrection (u : StatusUpdate) (c : Correction) : StatusUpdate :=
  if c.field = "patientName" then { u with patientName := some c.correct }
  else if c.field = "patientPhone" then { u with patientPhone := some c.correct }
  else u

/-- The `Additional info from verification` description rewrite of the
endpoint (lines 762-767). -/
def appendAdditionalInfo (priorDescription info : String) : String :=
  if priorDescription ≠ "" then
    priorDescription ++ "\n\nAdditional info from verification: " ++ info
  else "Additional info from verification: " ++ info

/-- The lazy refresh of `getCallVerificationStatus` (lines 719-796): when
the stored call status is non-terminal it fetches the current status; a
change to `ended` with transcript data runs transcript analysis, persists
its outcome with status `verification_complete`, applies allow-listed
corrections to top-level fields, and possibly rewrites the description; a
change to `ended` without transcript data writes
`verification_ended_no_transcript`; any other change writes only the call
status; a fetch failure changes nothing. -/
def refreshStatusUpdate (r : HealthRecord) (fetch : Except Unit CallData)
    (o : TranscriptOutcome) : StatusUpdate :=
  if r.vc.status = "registered" ∨ r.vc.status = "ongoing" then
    match fetch with
    | .error _ => {}
    | .ok cs =>
      if cs.status ≠ r.vc.status then
        if cs.status = "ended" then
          if hasTranscriptData cs then
            let pct := processCallTranscript (some cs) o
            let u0 : StatusUpdate :=
              { vcStatus := some cs.status,
                vcEndTimeSet := true,
                vcTranscript := some cs.transcript,
                vcTranscriptObject := some cs.transcriptObject,
                vcRecordingUrl := some cs.recordingUrl,
                vcVerificationComplete := some pct.verificationSuccessful,
                vcCorrections := some pct.corrections,
                vcAdditionalInfo := some pct.additionalInfo,
                vcSummary := some (pct.transcriptAnalysisSummary.getD ""),
                processingStatus := some .verification_complete }
            let u1 := pct.corrections.foldl applyEndpointCorrection u0
            if pct.additionalInfo ≠ "" ∧ strTrim pct.additionalInfo ≠ "" then
              { u1 with description := some (appendAdditionalInfo r.description pct.additionalInfo) }
            else u1
          else
            { vcStatus := some cs.status,
              vcEndTimeSet := true,
              processingStatus := some .verification_ended_no_transcript }
        else { vcStatus := some cs.status }
      else {}
  else {}

/-- Chain position of each pipeline status, for the forward-only claim:
`uploaded` precedes `document_ai_complete`, then `verification_initiated`,
then `verification_ended`, and all terminal statuses share the last rank. -/
def chainIdx : ProcessingStatus → Nat
  | .uploaded => 0
  | .document_ai_complete => 1
  | .verification_initiated => 2
  | .verification_ended => 3
  | .verification_complete => 4
  | .processing_complete => 4
  | .verification_ended_no_transcript => 4

/-- Membership in the status set named by the claim under audit. -/
def inClaimedStatusSet : ProcessingStatus → Bool
  | .uploaded => true
  | .document_ai_complete => true
  | .verification_initiated => true
  | .verification_ended => true
  | .verification_complete => true
  | .processing_complete => true
  | .verification_ended_no_transcript => false

/-- Concrete upload without a patient phone, for the C4 witness. -/
def c4input : UploadInput :=
  ⟨"Blood Panel", "yearly check", "Lab Result", "Jane Roe", "   ", "panel.pdf"⟩

/-- Oracles for the C4 witness run: extraction succeeds, structuring uses
the fallback key-less path, archival succeeds. -/
def c4oracles : PipelineOracles :=
  ⟨.ok ⟨"CBC results", [⟨1, "CBC results"⟩]⟩, .error (), fun _ => .error (), .noKey,
    fun _ => none, .unparsable, .ok "https://bucket.s3.amazonaws.com/panel.pdf"⟩

/-- Concrete upload whose extraction fails, for the C3 evaluation. -/
def c3input : UploadInput :=
  ⟨"Scan", "", "Medical Report", "Jane Doe", "", "scan.pdf"⟩

/-- Oracles for the C3 run: the Document AI call fails; everything else is
immaterial to the recorded extraction source. -/
def c3oracles : PipelineOracles :=
  ⟨.error (), .error (), fun _ => .error (), .noKey, fun _ => none, .unparsable,
    .ok "https://bucket.s3.amazonaws.com/scan.pdf"⟩

/-- A well-formed JSON object body used by the C8 counterexample. -/
def c8json : List Char := ['\x7b', '"', 'a', '"', ':', '1', '\x7d']

/-- Trailing prose containing a closing brace (a smiley). -/
def c8post : List Char := [' ', ':', '-', '\x7d']

/-- Model response: the JSON object followed by prose that contains a
closing brace. -/
def c8content : List Char := ("Sure: ".toList) ++ c8json ++ c8post

/-- Brace-free prose and object for the C8 witness. -/
def c8preW : List Char := "Answer: ".toList

/-- The embedded JSON object for the C8 witness. -/
def c8jsonW : List Char := ['\x7b', '"', 'b', '"', ':', '2', '\x7d']

/-- Brace-free trailing prose for the C8 witness. -/
def c8postW : List Char := " end.".toList

/-- Record holding a registered verification call, for the C5
counterexample: its stored call status is non-terminal so the endpoint
refreshes it. -/
def c5record : HealthRecord :=
  ⟨"Checkup", "", "Medical Report", "Pat Doe", "+15550100", getMockPdfData, "google",
    none, .verification_initiated,
    ⟨some "call_abc", "registered", false, none, none, none, false, [], "", ""⟩,
    none, none⟩

/-- Fetched call data for the C5 counterexample: the call ended but carries
no transcript in any form. -/
def c5fetch : CallData := ⟨"ended", none, none, none, false⟩

/-- Upload input for the C7 runs (no phone, so no call). -/
def c7input : UploadInput :=
  ⟨"Report", "desc", "Medical Report", "Ann Lee", "", "r.pdf"⟩

/-- Oracles for the C7 counterexample: the structuring API call fails, and
the S3 upload also fails so archival falls back to the local path. -/
def c7oracles : PipelineOracles :=
  ⟨.ok ⟨"text", []⟩, .error (), fun _ => .error (), .apiFail, fun _ => none,
    .unparsable, .error ()⟩

/-- A JSON.parse oracle that always fails, for the C7 witness. -/
def w7parse : String → Option StructuredData := fun _ => none

/-- A model response from which no JSON object can be extracted. -/
def w7s : String := "the model returned prose with no json"

/-- A concrete structuring context for the C7 witness. -/
def w7ctx : GroqContext := ⟨"Bob", "+15550123", "Prescription", "refill"⟩

/-- Record for the C6 counterexample. -/
def c6rec : HealthRecord :=
  ⟨"Visit", "", "Medical Report", "John Doe", "+15550100", getMockPdfData, "google",
    none, .document_ai_complete, initialVerificationCall, none, none⟩

/-- Structured data with a patient block, for the C6 counterexample. -/
def c6sd : StructuredData := ⟨some ⟨"John Doe", "+15550100"⟩, none, []⟩

/-- A patientName correction whose correct value is empty. -/
def c6corr : Correction := ⟨"patientName", "John Doe", ""⟩

/-- Record for the C6 witness. -/
def w6rec : HealthRecord :=
  ⟨"Visit2", "", "Prescription", "Jon Smith", "+15550111", getMockHandwrittenData,
    "google", none, .document_ai_complete, initialVerificationCall, none, none⟩

/-- Structured data with a patient block, for the C6 witness. -/
def w6sd : StructuredData := ⟨some ⟨"Jon Smith", "+15550111"⟩, none, []⟩

/-- A non-empty patientName correction, for the C6 witness. -/
def w6corr : Correction := ⟨"patientName", "Jon Smith", "Robert Smith"⟩

/-- Call data reporting ongoing, used in the C6 witness endpoint instance. -/
def w6fetch : CallData := ⟨"ongoing", none, none, none, false⟩

/-- Upload input with a phone, for the C6 witness pipeline run. -/
def w6input : UploadInput :=
  ⟨"Visit2", "", "Prescription", "Jon Smith", "+15550111", "v.jpg"⟩

/-- Ended call with a transcript, fetched on the first poll of the C6
witness pipeline run. -/
def w6cd : CallData := ⟨"ended", some "Patient: call me Robert Smith", none, none, false⟩

/-- Transcript-analysis output with one allow-listed correction. -/
def w6tr : TranscriptJson :=
  ⟨some [⟨"patientName", "Jon Smith", "Robert Smith"⟩], some "", some "ok", some true⟩

/-- Oracles for the C6 witness pipeline run. -/
def w6oracles : PipelineOracles :=
  ⟨.ok ⟨"rx", []⟩, .ok ⟨"call_w6", "registered"⟩, fun _ => .ok w6cd, .noKey,
    fun _ => none, .parsed w6tr, .ok "https://b.amazonaws.com/v.jpg"⟩

/-- The transcript-processing result of the C6 witness run. -/
def w6pct : PCTResult :=
  ⟨true, false, [⟨"patientName", "Jon Smith", "Robert Smith"⟩], "", some "ok"⟩

/-- Upload input for the C9 witness run. -/
def w9input : UploadInput :=
  ⟨"Scan9", "", "Lab Result", "Kim Lee", "+15550199", "s.pdf"⟩

/-- Ended call with a transcript, for the C9 witness run. -/
def w9cd : CallData := ⟨"ended", some "Patient: everything is correct", none, none, false⟩

/-- Transcript-analysis output that succeeds with no corrections. -/
def w9tr : TranscriptJson := ⟨some [], some "", some "all good", some true⟩

/-- Oracles for the C9 witness run. -/
def w9oracles : PipelineOracles :=
  ⟨.ok ⟨"lab", []⟩, .ok ⟨"call_w9", "registered"⟩, fun _ => .ok w9cd, .noKey,
    fun _ => none, .parsed w9tr, .ok "https://b.amazonaws.com/s.pdf"⟩

/-- The transcript-processing result of the C9 witness run. -/
def w9pct : PCTResult := ⟨true, false, [], "", some "all good"⟩

/-- Record with a registered call and a prior description, for C10. -/
def w10rec : HealthRecord :=
  ⟨"Xray", "Prior notes", "Medical Report", "Lee Park", "+15550177", getMockPdfData,
    "google", none, .verification_initiated,
    ⟨some "call_w10", "registered", false, none, none, none, false, [], "", ""⟩,
    none, none⟩

/-- Fetched call data with transcript, for the C10 witness. -/
def w10cs : CallData :=
  ⟨"ended", some "Patient: I am allergic to penicillin", none, none, false⟩

/-- Transcript-analysis output carrying non-blank additional info. -/
def w10tr : TranscriptJson :=
  ⟨some [], some "Allergic to penicillin", some "ok", some true⟩

/-- Concrete witness for the poll-loop bound: an oracle whose very first
fetch reports an ended call makes the loop stop after one fetch. -/
def fetchAlwaysEnded : Nat → Except Unit CallData :=
  fun _ => Except.ok ⟨"ended", some "call transcript", none, none, false⟩

theorem pollLoop_characterization (f : Nat → Except Unit CallData) :
    ∀ b i last, i + b = maxPollIterations →
      pollLoop f i (pollIntervalMs * i) last =
        (match scanTerm f i b with
          | some (k, cd) => ⟨k + 1, true, some cd, some cd⟩
          | none => ⟨maxPollIterations, false, none, lastObs f i b last⟩) := by
  intro b
  induction b with
  | zero =>
    intro i last hib
    have hi : i = maxPollIterations := by omega
    rw [pollLoop]
    have hlt : ¬ pollIntervalMs * i < maxWaitTime := by
      subst hi
      simp only [maxPollIterations, maxWaitTime, pollIntervalMs]
      omega
    rw [if_neg hlt]
    simp [scanTerm, lastObs, hi]
  | succ b ih =>
    intro i last hib
    rw [pollLoop]
    have hlt : pollIntervalMs * i < maxWaitTime := by
      have : i < maxPollIterations := by omega
      simp only [maxPollIterations, maxWaitTime, pollIntervalMs] at *
      omega
    rw [if_pos hlt]
    cases hf : f i with
    | error e =>
      have : pollIntervalMs * i + pollIntervalMs = pollIntervalMs * (i + 1) := by ring
      rw [this, ih (i + 1) last (by omega)]
      simp [scanTerm, lastObs, hf]
    | ok cd =>
      by_cases hterm : isTerminalStr cd.status
      · simp [hterm, scanTerm, lastObs, hf]
      · have : pollIntervalMs * i + pollIntervalMs = pollIntervalMs * (i + 1) := by ring
        simp only [hterm, if_false, Bool.false_eq_true]
        rw [this, ih (i + 1) (some cd) (by omega)]
        simp [scanTerm, lastObs, hf, hterm]

theorem pollLoopFuel_characterization (f : Nat → Except Unit CallData) :
    ∀ b i last,
      pollLoopFuel f b i last =
        (match scanTerm f i b with
          | some (k, cd) => ⟨k + 1, true, some cd, some cd⟩
          | none => ⟨i + b, false, none, lastObs f i b last⟩) := by
  intro b
  induction b with
  | zero =>
    intro i last
    simp [pollLoopFuel, scanTerm, lastObs]
  | succ b ih =>
    intro i last
    rw [pollLoopFuel]
    cases hf : f i with
    | error e =>
      rw [ih (i + 1) last]
      have harith : i + 1 + b = i + (b + 1) := by omega
      simp [scanTerm, lastObs, hf, harith]
    | ok cd =>
      by_cases hterm : isTerminalStr cd.status
      · simp [hterm, scanTerm, lastObs, hf]
      · simp only [hterm, if_false, Bool.false_eq_true]
        rw [ih (i + 1) (some cd)]
        have harith : i + 1 + b = i + (b + 1) := by omega
        simp [scanTerm, lastObs, hf, hterm, harith]

theorem pollPhase_eq (f : Nat → Except Unit CallData) :
    pollPhase f =
      (match scanTerm f 0 maxPollIterations with
        | some (k, cd) => ⟨k + 1, true, some cd, some cd⟩
        | none => ⟨maxPollIterations, false, none, lastObs f 0 maxPollIterations none⟩) := by
  have h := pollLoopFuel_characterization f maxPollIterations 0 none
  simpa [pollPhase] using h

/-- The iteration-counted loop driving the pipeline model coincides with
the clock-guarded translation of the source while loop. -/
theorem pollLoop_agrees (f : Nat → Except Unit CallData) :
    pollPhase f = pollLoop f 0 0 none := by
  have h1 := pollLoop_characterization f maxPollIterations 0 none (by omega)
  have h2 := pollLoopFuel_characterization f maxPollIterations 0 none
  have h0 : pollIntervalMs * 0 = 0 := by omega
  rw [h0] at h1
  rw [pollPhase, h2, h1]
  cases scanTerm f 0 maxPollIterations <;> simp

theorem scanTerm_bounds (f : Nat → Except Unit CallData) :
    ∀ b i k cd, scanTerm f i b = some (k, cd) →
      i ≤ k ∧ k < i + b ∧ f k = .ok cd ∧ isTerminalStr cd.status = true ∧
        ∀ j, i ≤ j → j < k → isTerminalFetch (f j) = false := by
  intro b
  induction b with
  | zero => intro i k cd h; simp [scanTerm] at h
  | succ b ih =>
    intro i k cd h
    cases hf : f i with
    | ok cd0 =>
      simp only [scanTerm, hf] at h
      by_cases hterm : isTerminalStr cd0.status
      · rw [if_pos hterm] at h
        obtain ⟨hk, hcd⟩ : i = k ∧ cd0 = cd := by
          simpa using h
        subst hk; subst hcd
        exact ⟨le_refl _, by omega, hf, hterm, fun j h1 h2 => absurd (lt_of_le_of_lt h1 h2) (lt_irrefl _)⟩
      · rw [if_neg hterm] at h
        obtain ⟨h1, h2, h3, h4, h5⟩ := ih (i + 1) k cd h
        refine ⟨by omega, by omega, h3, h4, ?_⟩
        intro j hj1 hj2
        rcases Nat.eq_or_lt_of_le hj1 with heq | hlt
        · subst heq; simp [isTerminalFetch, hf, hterm]
        · exact h5 j hlt hj2
    | error e =>
      simp only [scanTerm, hf] at h
      obtain ⟨h1, h2, h3, h4, h5⟩ := ih (i + 1) k cd h
      refine ⟨by omega, by omega, h3, h4, ?_⟩
      intro j hj1 hj2
      rcases Nat.eq_or_lt_of_le hj1 with heq | hlt
      · subst heq; simp [isTerminalFetch, hf]
      · exact h5 j hlt hj2

theorem scanTerm_none (f : Nat → Except Unit CallData) :
    ∀ b i, scanTerm f i b = none →
      ∀ j, i ≤ j → j < i + b → isTerminalFetch (f j) = false := by
  intro b
  induction b with
  | zero => intro i _ j h1 h2; omega
  | succ b ih =>
    intro i h j hj1 hj2
    cases hf : f i with
    | ok cd0 =>
      simp only [scanTerm, hf] at h
      by_cases hterm : isTerminalStr cd0.status
      · rw [if_pos hterm] at h; exact absurd h (by simp)
      · rw [if_neg hterm] at h
        rcases Nat.eq_or_lt_of_le hj1 with heq | hlt
        · subst heq; simp [isTerminalFetch, hf, hterm]
        · exact ih (i + 1) h j hlt (by omega)
    | error e =>
      simp only [scanTerm, hf] at h
      rcases Nat.eq_or_lt_of_le hj1 with heq | hlt
      · subst heq; simp [isTerminalFetch, hf]
      · exact ih (i + 1) h j hlt (by omega)

theorem scanTerm_some_isSome (f : Nat → Except Unit CallData) (k : Nat) (cd : CallData)
    (h : scanTerm f 0 maxPollIterations = some (k, cd)) : k + 1 ≤ maxPollIterations := by
  have := (scanTerm_bounds f maxPollIterations 0 k cd h).2.1
  omega

theorem lastObs_not_terminal (f : Nat → Except Unit CallData) :
    ∀ b i last, (∀ j, i ≤ j → j < i + b → isTerminalFetch (f j) = false) →
      (match last with | some cd => isTerminalStr cd.status | none => false) = false →
      (match lastObs f i b last with
        | some cd => isTerminalStr cd.status
        | none => false) = false := by
  intro b
  induction b with
  | zero => intro i last _ hl; simpa [lastObs] using hl
  | succ b ih =>
    intro i last hall hl
    rw [lastObs]
    cases hf : f i with
    | ok cd =>
      have hterm : isTerminalFetch (f i) = false := hall i (le_refl _) (by omega)
      rw [hf] at hterm
      simp only [isTerminalFetch] at hterm
      exact ih (i + 1) (some cd) (fun j h1 h2 => hall j (by omega) (by omega)) (by simpa using hterm)
    | error e =>
      exact ih (i + 1) last (fun j h1 h2 => hall j (by omega) (by omega)) hl

/-- C1: for every upload that initiates a verification call, the call-status
poll loop queries call status at a fixed 5-second interval, stops as soon as
the fetched status is `ended` or `error` or once 3 minutes (36 intervals)
have elapsed since polling began, and in total (loop fetches plus the one
optional final fetch) never exceeds the 3-minute ceiling worth of fetches
plus one extra status fetch.  The loop fetch count equals one past the index
of the first terminal fetch when one occurs within the window, and equals
the full 36-fetch window otherwise. -/
theorem poll_loop_bounded_and_stops_on_terminal (f : Nat → Except Unit CallData) :
    (pollPhase f).fetchCount =
      (match scanTerm f 0 maxPollIterations with
        | some (k, _) => k + 1
        | none => maxPollIterations) ∧
    (pollPhase f).callEnded = (scanTerm f 0 maxPollIterations).isSome ∧
    (pollPhase f).fetchCount ≤ maxPollIterations ∧
    totalStatusFetches f ≤ maxPollIterations + 1 ∧
    (∀ k cd, scanTerm f 0 maxPollIterations = some (k, cd) →
      f k = .ok cd ∧ isTerminalStr cd.status = true ∧
        ∀ j, j < k → isTerminalFetch (f j) = false) ∧
    (scanTerm f 0 maxPollIterations = none →
      ∀ j, j < maxPollIterations → isTerminalFetch (f j) = false) := by
  cases hscan : scanTerm f 0 maxPollIterations with
  | some kcd =>
    obtain ⟨k, cd⟩ := kcd
    have hchar : pollPhase f = ⟨k + 1, true, some cd, some cd⟩ := by
      rw [pollPhase_eq f, hscan]
    have hb := scanTerm_bounds f maxPollIterations 0 k cd hscan
    have hk1 : k + 1 ≤ maxPollIterations := scanTerm_some_isSome f k cd hscan
    refine ⟨by rw [hchar], by rw [hchar]; rfl, by rw [hchar]; exact hk1, ?_, ?_, ?_⟩
    · have h0 : totalStatusFetches f = (pollPhase f).fetchCount + finalFetchCount f := rfl
      have h1 : finalFetchCount f = 0 := by
        simp [finalFetchCount, hchar]
      rw [h0, h1, hchar]
      show k + 1 + 0 ≤ maxPollIterations + 1
      omega
    · intro k2 cd2 h2
      obtain ⟨hk2, hcd2⟩ : k = k2 ∧ cd = cd2 := by simpa using h2
      subst hk2; subst hcd2
      exact ⟨hb.2.2.1, hb.2.2.2.1, fun j hj => hb.2.2.2.2 j (by omega) hj⟩
    · intro h2; exact absurd h2 (by simp)
  | none =>
    have hchar : pollPhase f =
        ⟨maxPollIterations, false, none, lastObs f 0 maxPollIterations none⟩ := by
      rw [pollPhase_eq f, hscan]
    have hnone := scanTerm_none f maxPollIterations 0 hscan
    refine ⟨by rw [hchar], by rw [hchar]; rfl, by rw [hchar], ?_, ?_, ?_⟩
    · have h0 : totalStatusFetches f = (pollPhase f).fetchCount + finalFetchCount f := rfl
      have h1 : finalFetchCount f = 1 := by
        simp [finalFetchCount, hchar]
      rw [h0, h1, hchar]
    · intro k2 cd2 h2; exact absurd h2 (by simp)
    · intro _ j hj; exact hnone j (by omega) (by omega)

theorem poll_loop_bounded_and_stops_on_terminal_witness :
    totalStatusFetches fetchAlwaysEnded ≤ maxPollIterations + 1 ∧
    (pollPhase fetchAlwaysEnded).fetchCount = 1 ∧
    fetchAlwaysEnded 0 = .ok ⟨"ended", some "call transcript", none, none, false⟩ := by
  have h := poll_loop_bounded_and_stops_on_terminal fetchAlwaysEnded
  have hscan : scanTerm fetchAlwaysEnded 0 maxPollIterations =
      some (0, ⟨"ended", some "call transcript", none, none, false⟩) := by decide
  refine ⟨h.2.2.2.1, ?_, ?_⟩
  · rw [h.1, hscan]
  · exact (h.2.2.2.2.1 0 _ hscan).1

/-- C2: for every polled verification call, when the poll loop stops, whether
because a fetched status became terminal (`ended` or `error`) or because the
3-minute ceiling elapsed, the orchestrator makes exactly one more status
fetch to capture final state exactly when the last observed status is not
already terminal. -/
theorem final_fetch_iff_last_not_terminal (f : Nat → Except Unit CallData) :
    finalFetchCount f = (if lastObservedTerminal f then 0 else 1) := by
  cases hscan : scanTerm f 0 maxPollIterations with
  | some kcd =>
    obtain ⟨k, cd⟩ := kcd
    have hchar : pollPhase f = ⟨k + 1, true, some cd, some cd⟩ := by
      rw [pollPhase_eq f, hscan]
    have hterm := (scanTerm_bounds f maxPollIterations 0 k cd hscan).2.2.2.1
    have h1 : finalFetchCount f = 0 := by simp [finalFetchCount, hchar]
    have h2 : lastObservedTerminal f = true := by
      simp [lastObservedTerminal, hchar, hterm]
    rw [h1, h2]
    rfl
  | none =>
    have hchar : pollPhase f =
        ⟨maxPollIterations, false, none, lastObs f 0 maxPollIterations none⟩ := by
      rw [pollPhase_eq f, hscan]
    have h1 : finalFetchCount f = 1 := by simp [finalFetchCount, hchar]
    have hnone := scanTerm_none f maxPollIterations 0 hscan
    have h2 : lastObservedTerminal f = false := by
      have := lastObs_not_terminal f maxPollIterations 0 none
        (fun j hj1 hj2 => hnone j hj1 hj2) rfl
      simp only [lastObservedTerminal, hchar]
      exact this
    rw [h1, h2]
    rfl

/-- C4: for every upload whose patientPhone is absent or blank, the pipeline
reaches a terminal processingStatus (`processing_complete`) without ever
invoking the Verification Call Client: neither `initiateVerificationCall`
nor `getCallStatus` is called. -/
theorem no_phone_no_retell_calls (inp : UploadInput) (o : PipelineOracles)
    (h : phoneProvided inp = false) :
    (uploadPipeline inp o).initiateCount = 0 ∧
    (uploadPipeline inp o).fetchCount = 0 ∧
    (uploadPipeline inp o).record.processingStatus = .processing_complete := by
  simp [uploadPipeline, step1Verification, step2Poll, step4Transcript, strTruthy, h]

theorem no_phone_no_retell_calls_witness :
    phoneProvided c4input = false ∧
    (uploadPipeline c4input c4oracles).initiateCount = 0 ∧
    (uploadPipeline c4input c4oracles).fetchCount = 0 ∧
    (uploadPipeline c4input c4oracles).record.processingStatus = .processing_complete := by
  have h : phoneProvided c4input = false := by decide
  have hmain := no_phone_no_retell_calls c4input c4oracles h
  exact ⟨h, hmain.1, hmain.2.1, hmain.2.2⟩

/-- C3 (code bug): on an upload whose extraction stage fails, the record
still reaches a terminal processingStatus and carries the canned mock
fallback content, but the persisted timeline source stays `google`, not
`mock`: `parsePdfDocument` swallows the failure and returns
`getMockPdfData()` without raising, so the controller branch that would set
`documentAISource = "mock"` (healthRecordController.js lines 124-135) can
never run.  Evaluated here at a concrete failing input. -/
theorem extraction_failure_records_google_source :
    c3oracles.docAI = .error () ∧
    (uploadPipeline c3input c3oracles).record.docAISource = "google" ∧
    (uploadPipeline c3input c3oracles).record.extractedData = getMockPdfData ∧
    (uploadPipeline c3input c3oracles).record.processingStatus = .processing_complete := by
  refine ⟨rfl, ?_, ?_, ?_⟩ <;>
    simp [uploadPipeline, step1Verification, step2Poll, step4Transcript, strTruthy,
      createRecord, parsePdfDocument, c3input, c3oracles, phoneProvided]

theorem idxOf_append_not_mem (c : Char) (l1 l2 : List Char) (h : c ∉ l1) :
    idxOf c (l1 ++ l2) = (idxOf c l2).map (· + l1.length) := by
  induction l1 with
  | nil =>
    cases h2 : idxOf c l2 <;> simp [h2]
  | cons x t ih =>
    have hx : ¬ x = c := by
      intro he
      exact h (by simp [he])
    have ht : c ∉ t := fun hm => h (List.mem_cons_of_mem _ hm)
    rw [List.cons_append]
    simp only [idxOf, if_neg hx]
    rw [ih ht]
    cases h2 : idxOf c l2 with
    | none => simp
    | some v =>
      simp only [Option.map_some', List.length_cons, Option.some.injEq]
      omega

/-- C8 (amended): for every model response consisting of a JSON object
(starting with an opening brace and ending with a closing brace) surrounded
by leading prose free of opening braces and trailing prose free of closing
braces, the extraction of `processHealthRecord` (first opening brace to
last closing brace; the greedy regex of `processTranscript` selects the
same span) recovers exactly the embedded object, which then parses as the
well-formed object it is. -/
theorem jsonExtract_recovers_brace_free_prose (pre json post : List Char)
    (hpre : '\x7b' ∉ pre) (hpost : '\x7d' ∉ post)
    (hhead : json.head? = some '\x7b') (hlast : json.getLast? = some '\x7d') :
    jsonExtract (pre ++ json ++ post) = some json := by
  cases json with
  | nil => simp at hhead
  | cons a t =>
    have ha : a = '\x7b' := by simpa using hhead
    subst ha
    simp only [List.append_assoc]
    have hidx1 : idxOf '\x7b' (pre ++ ('\x7b' :: t ++ post)) = some pre.length := by
      rw [idxOf_append_not_mem _ _ _ hpre]
      simp [idxOf]
    have hrevhead : ('\x7b' :: t).reverse.head? = some '\x7d' := by
      rw [List.head?_reverse]
      exact hlast
    have hidx2 : lastIdxOf '\x7d' (pre ++ ('\x7b' :: t ++ post)) =
        some (pre.length + t.length) := by
      have hrw : (pre ++ ('\x7b' :: t ++ post)).reverse =
          post.reverse ++ (('\x7b' :: t).reverse ++ pre.reverse) := by
        simp [List.reverse_append]
      cases hrev : ('\x7b' :: t).reverse with
      | nil => simp at hrev
      | cons b s =>
        have hb : b = '\x7d' := by
          rw [hrev] at hrevhead
          simpa using hrevhead
        subst hb
        have h0 : idxOf '\x7d' (('\x7d' :: s) ++ pre.reverse) = some 0 := by
          simp [idxOf]
        have h1 : idxOf '\x7d' ((pre ++ ('\x7b' :: t ++ post)).reverse) =
            some post.length := by
          rw [hrw, idxOf_append_not_mem _ _ _ (by simpa using hpost), hrev, h0]
          simp
        have hL : (pre ++ ('\x7b' :: t ++ post)).length =
            pre.length + (t.length + 1 + post.length) := by
          simp
          omega
        rw [lastIdxOf, h1]
        simp only [Option.map_some', hL]
        congr 1
        omega
    have hcond : pre.length < pre.length + t.length + 1 := by omega
    have harith : pre.length + t.length + 1 - pre.length = ('\x7b' :: t).length := by
      simp
      omega
    have hdrop : List.drop pre.length (pre ++ ('\x7b' :: t ++ post)) =
        '\x7b' :: t ++ post := List.drop_left pre _
    rw [jsonExtract, hidx1, hidx2]
    simp only [if_pos hcond, hdrop, harith, List.take_left]

theorem jsonExtract_recovers_brace_free_prose_witness :
    jsonExtract (c8preW ++ c8jsonW ++ c8postW) = some c8jsonW :=
  jsonExtract_recovers_brace_free_prose c8preW c8jsonW c8postW
    (by decide) (by decide) (by decide) (by decide)

/-- Counterexample for C8 as stated: with trailing prose containing a
closing brace, the extraction returns the span from the first opening brace
to the last closing brace, which is strictly larger than the embedded
balanced object and is itself not brace-balanced, hence not parseable as a
JSON object. -/
theorem jsonExtract_misses_balanced_object :
    braceBalanced c8json = true ∧
    jsonExtract c8content = some (c8json ++ c8post) ∧
    c8json ++ c8post ≠ c8json ∧
    braceBalanced (c8json ++ c8post) = false := by
  refine ⟨by decide, by decide, by decide, by decide⟩

theorem step1_spec (inp : UploadInput) (ci : Except Unit InitResult) (r : HealthRecord) :
    ((step1Verification inp ci r).statusWrites = [] ∧
      (step1Verification inp ci r).verificationCallId = none) ∨
    ((step1Verification inp ci r).statusWrites = [ProcessingStatus.verification_initiated] ∧
      (step1Verification inp ci r).verificationCallId.isSome = true) := by
  unfold step1Verification
  by_cases hp : phoneProvided inp = true
  · cases ci with
    | ok ir => right; simp [hp]
    | error e => left; simp [hp]
  · left
    simp [hp]

theorem step2_statusWrites (f : Nat → Except Unit CallData) (vcid : Option String)
    (r : HealthRecord) :
    (step2Poll f vcid r).statusWrites = [] ∨
    (step2Poll f vcid r).statusWrites = [ProcessingStatus.verification_ended] := by
  unfold step2Poll
  cases vcid with
  | none => left; rfl
  | some cid =>
    by_cases hc : cid = ""
    · left; simp [hc]
    · by_cases he : (pollPhase f).callEnded = true
      · cases hcc : (pollPhase f).completeCallData with
        | some cd =>
          by_cases ht : hasTranscriptData cd = true
          · right; simp [hc, he, hcc, ht]
          · left; simp [hc, he, hcc, ht]
        | none => left; simp [hc, he, hcc]
      · cases hf : f (pollPhase f).fetchCount with
        | ok cd =>
          by_cases ht : hasTranscriptData cd = true
          · left; simp [hc, he, hf, ht]
          · left; simp [hc, he, hf, ht]
        | error e => left; simp [hc, he, hf]

theorem statusWrites_shape (w1 w2 : List ProcessingStatus) (fin : ProcessingStatus)
    (h1 : w1 = [] ∨ w1 = [ProcessingStatus.verification_initiated])
    (h2 : w2 = [] ∨ (w2 = [ProcessingStatus.verification_ended] ∧
      w1 = [ProcessingStatus.verification_initiated]))
    (hf : fin = ProcessingStatus.verification_complete ∨
      fin = ProcessingStatus.processing_complete) :
    ([ProcessingStatus.document_ai_complete] ++ w1 ++ w2 ++ [fin]).all inClaimedStatusSet = true ∧
    List.Chain' (fun a b => chainIdx a < chainIdx b)
      ([ProcessingStatus.document_ai_complete] ++ w1 ++ w2 ++ [fin]) ∧
    (([ProcessingStatus.document_ai_complete] ++ w1 ++ w2 ++ [fin]).getLast? =
        some ProcessingStatus.verification_complete ∨
      ([ProcessingStatus.document_ai_complete] ++ w1 ++ w2 ++ [fin]).getLast? =
        some ProcessingStatus.processing_complete) := by
  rcases h2 with h2 | ⟨h2, h1x⟩
  · rcases h1 with h1 | h1 <;> rcases hf with hf | hf <;> subst h1 <;> subst h2 <;> subst hf <;>
      exact ⟨by decide, by simp [List.chain'_cons, List.chain'_singleton, chainIdx], by decide⟩
  · subst h1x
    rcases hf with hf | hf <;> subst h2 <;> subst hf <;>
      exact ⟨by decide, by simp [List.chain'_cons, List.chain'_singleton, chainIdx], by decide⟩

theorem endpointFold_frame (cs : List Correction) (u : StatusUpdate) :
    (cs.foldl applyEndpointCorrection u).processingStatus = u.processingStatus ∧
    (cs.foldl applyEndpointCorrection u).structuredDataWrite = u.structuredDataWrite ∧
    (cs.foldl applyEndpointCorrection u).description = u.description ∧
    (cs.foldl applyEndpointCorrection u).vcCorrections = u.vcCorrections := by
  induction cs generalizing u with
  | nil => exact ⟨rfl, rfl, rfl, rfl⟩
  | cons c t ih =>
    have hc : (applyEndpointCorrection u c).processingStatus = u.processingStatus ∧
        (applyEndpointCorrection u c).structuredDataWrite = u.structuredDataWrite ∧
        (applyEndpointCorrection u c).description = u.description ∧
        (applyEndpointCorrection u c).vcCorrections = u.vcCorrections := by
      unfold applyEndpointCorrection
      by_cases h1 : c.field = "patientName"
      · simp [h1]
      · by_cases h2 : c.field = "patientPhone" <;> simp [h1, h2]
    obtain ⟨ih1, ih2, ih3, ih4⟩ := ih (applyEndpointCorrection u c)
    rw [List.foldl_cons]
    exact ⟨ih1.trans hc.1, ih2.trans hc.2.1, ih3.trans hc.2.2.1, ih4.trans hc.2.2.2⟩

theorem endpointFold_processingStatus (cs : List Correction) (u : StatusUpdate) :
    (cs.foldl applyEndpointCorrection u).processingStatus = u.processingStatus :=
  (endpointFold_frame cs u).1

/-- C5 (amended): every processingStatus value the upload pipeline writes is
drawn from the set (uploaded, document_ai_complete, verification_initiated,
verification_ended, verification_complete, processing_complete), its writes
move strictly forward along that chain, and its final write is one of the
terminal statuses processing_complete or verification_complete.  The
verification-status endpoint, however, additionally writes
verification_ended_no_transcript, a value outside that set, when an ended
call has no transcript: every status it writes is verification_complete or
verification_ended_no_transcript, and both leave the stored call status
terminal so the endpoint never rewrites them. -/
theorem processing_status_writes_spec :
    (∀ (inp : UploadInput) (o : PipelineOracles),
      (uploadPipeline inp o).statusWrites.all inClaimedStatusSet = true ∧
      List.Chain' (fun a b => chainIdx a < chainIdx b) (uploadPipeline inp o).statusWrites ∧
      ((uploadPipeline inp o).statusWrites.getLast? =
          some ProcessingStatus.verification_complete ∨
        (uploadPipeline inp o).statusWrites.getLast? =
          some ProcessingStatus.processing_complete)) ∧
    (∀ (r : HealthRecord) (fetch : Except Unit CallData) (t : TranscriptOutcome),
      ((refreshStatusUpdate r fetch t).processingStatus).all
        (fun s2 => s2 == ProcessingStatus.verification_complete ||
          s2 == ProcessingStatus.verification_ended_no_transcript) = true) := by
  constructor
  · intro inp o
    set r0 := createRecord inp (parsePdfDocument o.docAI) with hr0
    set s1 := step1Verification inp o.callInit r0 with hs1
    set s2 := step2Poll o.fetches s1.verificationCallId s1.record with hs2
    set sd0 := processHealthRecord o.jsonParse o.groqApi (groqContext inp) with hsd0
    set s4 := step4Transcript o.transcriptOutcome s2 s2.record sd0 with hs4
    have hw : (uploadPipeline inp o).statusWrites =
        [ProcessingStatus.document_ai_complete] ++ s1.statusWrites ++ s2.statusWrites ++
          [if s4.transcriptResult.isSome then ProcessingStatus.verification_complete
            else ProcessingStatus.processing_complete] := by
      rw [hs4, hs2, hs1, hsd0, hr0]
      rfl
    have hspec := step1_spec inp o.callInit r0
    rw [← hs1] at hspec
    have h1 : s1.statusWrites = [] ∨
        s1.statusWrites = [ProcessingStatus.verification_initiated] := by
      rcases hspec with ⟨ha, _⟩ | ⟨ha, _⟩
      · exact Or.inl ha
      · exact Or.inr ha
    have h2 : s2.statusWrites = [] ∨ (s2.statusWrites = [ProcessingStatus.verification_ended] ∧
        s1.statusWrites = [ProcessingStatus.verification_initiated]) := by
      rcases hspec with ⟨ha, hb⟩ | ⟨ha, hb⟩
      · have hempty : s2.statusWrites = [] := by
          rw [hs2, hb]
          rfl
        exact Or.inl hempty
      · rcases step2_statusWrites o.fetches s1.verificationCallId s1.record with hsw | hsw
        · rw [← hs2] at hsw
          exact Or.inl hsw
        · rw [← hs2] at hsw
          exact Or.inr ⟨hsw, ha⟩
    have hf : (if s4.transcriptResult.isSome then ProcessingStatus.verification_complete
        else ProcessingStatus.processing_complete) = ProcessingStatus.verification_complete ∨
        (if s4.transcriptResult.isSome then ProcessingStatus.verification_complete
          else ProcessingStatus.processing_complete) = ProcessingStatus.processing_complete := by
      by_cases hres : s4.transcriptResult.isSome = true
      · exact Or.inl (by simp [hres])
      · exact Or.inr (by simp [hres])
    rw [hw]
    exact statusWrites_shape s1.statusWrites s2.statusWrites _ h1 h2 hf
  · intro r fetch t
    unfold refreshStatusUpdate
    by_cases hreg : (r.vc.status = "registered" ∨ r.vc.status = "ongoing")
    · rw [if_pos hreg]
      cases fetch with
      | error e => rfl
      | ok cs =>
        by_cases hne : cs.status = r.vc.status
        · simp [hne]
        · by_cases hend : cs.status = "ended"
          · have hne2 : ¬("ended" = r.vc.status) := by
              rw [← hend]
              exact hne
            by_cases ht : hasTranscriptData cs = true
            · by_cases hinfo : ((processCallTranscript (some cs) t).additionalInfo ≠ "" ∧
                  strTrim ((processCallTranscript (some cs) t).additionalInfo) ≠ "")
              · simp [hne, hne2, hend, ht, hinfo, endpointFold_processingStatus]
              · simp [hne, hne2, hend, ht, hinfo, endpointFold_processingStatus]
            · simp [hne, hne2, hend, ht]
          · simp [hne, hend]
    · rw [if_neg hreg]
      rfl

/-- Counterexample for C5 as stated: the verification-status endpoint,
refreshing a registered call that the platform reports as ended with no
transcript, writes the processingStatus value
verification_ended_no_transcript, which lies outside the claimed set. -/
theorem status_endpoint_writes_unlisted_value :
    (refreshStatusUpdate c5record (.ok c5fetch) .unparsable).processingStatus =
      some ProcessingStatus.verification_ended_no_transcript ∧
    inClaimedStatusSet ProcessingStatus.verification_ended_no_transcript = false := by
  exact ⟨by decide, by decide⟩

/-- C7 (amended): for every upload whose structuring stage fails, the
persisted structuredData is non-null and the pipeline still archives the
file; but the explicit error marker is present only when the failure is an
unparsable model response — when the API call itself fails (or the key is
missing) the fallback is the context-derived mock skeleton, which carries
the patient context and no error marker. -/
theorem structuring_failure_fallback_and_archival :
    (∀ (ctx : GroqContext) (parse : String → Option StructuredData),
      processHealthRecord parse .apiFail ctx = getMockStructuredData ctx ∧
      processHealthRecord parse .noKey ctx = getMockStructuredData ctx ∧
      (getMockStructuredData ctx).error = none ∧
      (getMockStructuredData ctx).patient.isSome = true) ∧
    (∀ (parse : String → Option StructuredData) (s : String) (ctx : GroqContext),
      (match jsonExtractS s with
        | some j => parse j
        | none => parse s) = none →
      processHealthRecord parse (.content s) ctx = unparsableStructuredData s ∧
      (unparsableStructuredData s).error =
        some "Failed to parse AI response into structured data") ∧
    (∀ (inp : UploadInput) (o : PipelineOracles),
      (uploadPipeline inp o).record.structuredData.isSome = true ∧
      (uploadPipeline inp o).s3Attempted = true) := by
  refine ⟨fun ctx parse => ⟨rfl, rfl, rfl, rfl⟩, ?_, fun inp o => ⟨rfl, rfl⟩⟩
  intro parse s ctx hparse
  constructor
  · have hred : processHealthRecord parse (.content s) ctx =
        (match (match jsonExtractS s with
          | some j => parse j
          | none => parse s) with
          | some sd => sd
          | none => unparsableStructuredData s) := rfl
    rw [hred, hparse]
  · rfl

theorem structuring_failure_fallback_and_archival_witness :
    processHealthRecord w7parse .apiFail w7ctx = getMockStructuredData w7ctx ∧
    processHealthRecord w7parse (.content w7s) w7ctx = unparsableStructuredData w7s ∧
    (uploadPipeline c7input c7oracles).s3Attempted = true := by
  refine ⟨(structuring_failure_fallback_and_archival.1 w7ctx w7parse).1, ?_, ?_⟩
  · exact (structuring_failure_fallback_and_archival.2.1 w7parse w7s w7ctx (by decide)).1
  · exact (structuring_failure_fallback_and_archival.2.2 c7input c7oracles).2

/-- Counterexample for C7 as stated: at a concrete upload whose structuring
stage fails through an API failure, the persisted structuredData is the
mock skeleton, whose error field is absent — no explicit error marker is
stored, although the pipeline does archive (here via the local fallback). -/
theorem structuring_api_failure_stores_no_error_marker :
    (uploadPipeline c7input c7oracles).record.structuredData =
      some (getMockStructuredData (groqContext c7input)) ∧
    (getMockStructuredData (groqContext c7input)).error = none ∧
    (uploadPipeline c7input c7oracles).s3Attempted = true := by
  exact ⟨by decide, by decide, by decide⟩

theorem step4_spec (o : TranscriptOutcome) (s2 : Step2Out) (r : HealthRecord)
    (sd : StructuredData) :
    ((s2.callTranscriptObject.isSome || strTruthy s2.callTranscript) = false ∧
      step4Transcript o s2 r sd = ⟨r, sd, none, false⟩) ∨
    (∃ pct : PCTResult,
      pct = processCallTranscript (some (step4CallData s2)) o ∧
      (step4Transcript o s2 r sd).transcriptResult = some pct ∧
      ((pct.corrections = [] ∧ step4Transcript o s2 r sd = ⟨r, sd, some pct, false⟩) ∨
        (pct.corrections ≠ [] ∧
          (step4Transcript o s2 r sd).analysisUpdateRan = true ∧
          (step4Transcript o s2 r sd).record.vc.corrections = pct.corrections ∧
          (step4Transcript o s2 r sd).record.vc.additionalInfo = pct.additionalInfo ∧
          (step4Transcript o s2 r sd).record.vc.verificationComplete =
            pct.verificationSuccessful ∧
          (step4Transcript o s2 r sd).record.vc.summary =
            pct.transcriptAnalysisSummary.getD ""))) := by
  by_cases hg : (s2.callTranscriptObject.isSome || strTruthy s2.callTranscript) = true
  · right
    refine ⟨processCallTranscript (some (step4CallData s2)) o, rfl, ?_, ?_⟩
    · unfold step4Transcript
      rw [if_pos hg]
      by_cases hc : (processCallTranscript (some (step4CallData s2)) o).corrections = [] <;>
        simp [hc]
    · by_cases hc : (processCallTranscript (some (step4CallData s2)) o).corrections = []
      · left
        refine ⟨hc, ?_⟩
        unfold step4Transcript
        rw [if_pos hg]
        simp [hc]
      · right
        refine ⟨hc, ?_, ?_, ?_, ?_, ?_⟩ <;>
          · unfold step4Transcript
            rw [if_pos hg]
            simp [hc]
  · left
    have hg2 : (s2.callTranscriptObject.isSome || strTruthy s2.callTranscript) = false := by
      simpa using hg
    refine ⟨hg2, ?_⟩
    unfold step4Transcript
    rw [if_neg hg]

theorem endpointFold_structuredDataWrite (cs : List Correction) (u : StatusUpdate) :
    (cs.foldl applyEndpointCorrection u).structuredDataWrite = u.structuredDataWrite :=
  (endpointFold_frame cs u).2.1

/-- C6 (amended): in the upload pipeline, a correction whose field is
patientName or patientPhone and whose correct value is non-empty is applied
to the top-level record field and, when structuredData.patient exists,
mirrored into it; a correction with any other field, or with an empty
correct value, changes neither the record nor structuredData.  All returned
corrections are persisted verbatim under verificationCall.corrections
whenever at least one is returned.  The verification-status endpoint never
writes structuredData (so its corrections are recorded without mirroring). -/
theorem corrections_allowlist_behavior :
    (∀ (r : HealthRecord) (sd : StructuredData) (c : Correction),
      (c.field = "patientName" → c.correct ≠ "" →
        applyCorrection r sd c =
          ({ r with patientName := c.correct },
            { sd with patient := sd.patient.map (fun p => { p with name := c.correct }) })) ∧
      (c.field = "patientPhone" → c.correct ≠ "" →
        applyCorrection r sd c =
          ({ r with patientPhone := c.correct },
            { sd with patient := sd.patient.map (fun p => { p with phone := c.correct }) })) ∧
      (c.field ≠ "patientName" → c.field ≠ "patientPhone" →
        applyCorrection r sd c = (r, sd)) ∧
      (c.correct = "" → applyCorrection r sd c = (r, sd))) ∧
    (∀ (inp : UploadInput) (o : PipelineOracles) (p : PCTResult),
      (uploadPipeline inp o).transcriptResult = some p → p.corrections ≠ [] →
      (uploadPipeline inp o).record.vc.corrections = p.corrections) ∧
    (∀ (r : HealthRecord) (fetch : Except Unit CallData) (t : TranscriptOutcome),
      (refreshStatusUpdate r fetch t).structuredDataWrite = none) := by
  refine ⟨?_, ?_, ?_⟩
  · intro r sd c
    refine ⟨?_, ?_, ?_, ?_⟩
    · intro h1 h2
      obtain ⟨pat, err, ext⟩ := sd
      unfold applyCorrection
      rw [if_pos ⟨by simp [h1], h2⟩, if_pos (Or.inl h1)]
      cases pat with
      | some p => simp [h1]
      | none => simp [h1]
    · intro h1 h2
      have hnn : ¬ c.field = "patientName" := by simp [h1]
      obtain ⟨pat, err, ext⟩ := sd
      unfold applyCorrection
      rw [if_pos ⟨by simp [h1], h2⟩, if_pos (Or.inr h1)]
      cases pat with
      | some p => simp [h1, hnn]
      | none => simp [h1, hnn]
    · intro h1 h2
      unfold applyCorrection
      by_cases hcc : (c.field ≠ "" ∧ c.correct ≠ "")
      · rw [if_pos hcc, if_neg (by simp [h1, h2])]
      · rw [if_neg hcc]
    · intro h
      unfold applyCorrection
      rw [if_neg (by simp [h])]
  · intro inp o p hres hne
    set r0 := createRecord inp (parsePdfDocument o.docAI) with hr0
    set s1 := step1Verification inp o.callInit r0 with hs1
    set s2 := step2Poll o.fetches s1.verificationCallId s1.record with hs2
    set sd0 := processHealthRecord o.jsonParse o.groqApi (groqContext inp) with hsd0
    have hresp : (step4Transcript o.transcriptOutcome s2 s2.record sd0).transcriptResult =
        some p := hres
    have hvcp : (uploadPipeline inp o).record.vc.corrections =
        (step4Transcript o.transcriptOutcome s2 s2.record sd0).record.vc.corrections := rfl
    rcases step4_spec o.transcriptOutcome s2 s2.record sd0 with ⟨_, heq⟩ | ⟨pct, _, htr, hcase⟩
    · rw [heq] at hresp
      exact absurd hresp (by simp)
    · rw [htr] at hresp
      have hp : pct = p := by
        simpa using hresp
      subst hp
      rcases hcase with ⟨hc, _⟩ | ⟨_, _, hcorr, _⟩
      · exact absurd hc hne
      · rw [hvcp, hcorr]
  · intro r fetch t
    unfold refreshStatusUpdate
    by_cases hreg : (r.vc.status = "registered" ∨ r.vc.status = "ongoing")
    · rw [if_pos hreg]
      cases fetch with
      | error e => rfl
      | ok cs =>
        by_cases hne : cs.status = r.vc.status
        · simp [hne]
        · by_cases hend : cs.status = "ended"
          · have hne2 : ¬("ended" = r.vc.status) := by
              rw [← hend]
              exact hne
            by_cases ht : hasTranscriptData cs = true
            · by_cases hinfo : ((processCallTranscript (some cs) t).additionalInfo ≠ "" ∧
                  strTrim ((processCallTranscript (some cs) t).additionalInfo) ≠ "")
              · simp [hne, hne2, hend, ht, hinfo, endpointFold_structuredDataWrite]
              · simp [hne, hne2, hend, ht, hinfo, endpointFold_structuredDataWrite]
            · simp [hne, hne2, hend, ht]
          · simp [hne, hend]
    · rw [if_neg hreg]

/-- Counterexample for C6 as stated: a correction returned by transcript
analysis whose field is patientName but whose correct value is empty is not
applied to the record (the loop requires a truthy correct value), so the
claim that every patientName correction updates the top-level field fails. -/
theorem patientName_correction_empty_value_not_applied :
    c6corr.field = "patientName" ∧
    applyCorrection c6rec c6sd c6corr = (c6rec, c6sd) ∧
    c6rec.patientName = "John Doe" ∧
    c6corr.correct ≠ "John Doe" := by
  exact ⟨rfl, by decide, rfl, by decide⟩

theorem corrections_allowlist_behavior_witness :
    applyCorrection w6rec w6sd w6corr =
      ({ w6rec with patientName := "Robert Smith" },
        { w6sd with patient := some ⟨"Robert Smith", "+15550111"⟩ }) ∧
    (uploadPipeline w6input w6oracles).transcriptResult = some w6pct ∧
    (uploadPipeline w6input w6oracles).record.vc.corrections = w6pct.corrections ∧
    (refreshStatusUpdate w6rec (.ok w6fetch) .unparsable).structuredDataWrite = none := by
  have hres : (uploadPipeline w6input w6oracles).transcriptResult = some w6pct := by
    decide
  refine ⟨?_, hres,
    corrections_allowlist_behavior.2.1 w6input w6oracles w6pct hres (by decide),
    corrections_allowlist_behavior.2.2 w6rec (.ok w6fetch) .unparsable⟩
  have h := (corrections_allowlist_behavior.1 w6rec w6sd w6corr).1 rfl (by decide)
  rw [h]
  decide

theorem step1_vc_frame (inp : UploadInput) (ci : Except Unit InitResult) (r : HealthRecord) :
    (step1Verification inp ci r).record.vc.verificationComplete = r.vc.verificationComplete ∧
    (step1Verification inp ci r).record.vc.additionalInfo = r.vc.additionalInfo ∧
    (step1Verification inp ci r).record.vc.summary = r.vc.summary := by
  unfold step1Verification
  by_cases hp : phoneProvided inp = true
  · cases ci <;> simp [hp]
  · simp [hp]

theorem step2_vc_frame (f : Nat → Except Unit CallData) (vcid : Option String)
    (r : HealthRecord) :
    (step2Poll f vcid r).record.vc.verificationComplete = r.vc.verificationComplete ∧
    (step2Poll f vcid r).record.vc.additionalInfo = r.vc.additionalInfo ∧
    (step2Poll f vcid r).record.vc.summary = r.vc.summary := by
  unfold step2Poll
  cases vcid with
  | none => exact ⟨rfl, rfl, rfl⟩
  | some cid =>
    by_cases hc : cid = ""
    · simp [hc]
    · by_cases he : (pollPhase f).callEnded = true
      · cases hcc : (pollPhase f).completeCallData with
        | some cd =>
          by_cases ht : hasTranscriptData cd = true <;> simp [hc, he, hcc, ht]
        | none => simp [hc, he, hcc]
      · cases hf : f (pollPhase f).fetchCount with
        | ok cd =>
          by_cases ht : hasTranscriptData cd = true <;> simp [hc, he, hf, ht]
        | error e => simp [hc, he, hf]

/-- C9: in the upload pipeline, if transcript analysis succeeds but returns
an empty corrections list, the update persisting the analysis outcome never
runs, and the persisted record keeps the schema defaults for
verificationCall.verificationComplete (false), additionalInfo (empty) and
summary (empty). -/
theorem empty_corrections_keep_defaults (inp : UploadInput) (o : PipelineOracles)
    (p : PCTResult) (hres : (uploadPipeline inp o).transcriptResult = some p)
    (hsucc : p.success = true) (hcorr : p.corrections = []) :
    (uploadPipeline inp o).analysisUpdateRan = false ∧
    (uploadPipeline inp o).record.vc.verificationComplete = false ∧
    (uploadPipeline inp o).record.vc.additionalInfo = "" ∧
    (uploadPipeline inp o).record.vc.summary = "" := by
  set r0 := createRecord inp (parsePdfDocument o.docAI) with hr0
  set s1 := step1Verification inp o.callInit r0 with hs1
  set s2 := step2Poll o.fetches s1.verificationCallId s1.record with hs2
  set sd0 := processHealthRecord o.jsonParse o.groqApi (groqContext inp) with hsd0
  have hresp : (step4Transcript o.transcriptOutcome s2 s2.record sd0).transcriptResult =
      some p := hres
  have hflag : (uploadPipeline inp o).analysisUpdateRan =
      (step4Transcript o.transcriptOutcome s2 s2.record sd0).analysisUpdateRan := rfl
  have hvc : (uploadPipeline inp o).record.vc =
      (step4Transcript o.transcriptOutcome s2 s2.record sd0).record.vc := rfl
  have h1f := step1_vc_frame inp o.callInit r0
  rw [← hs1] at h1f
  have h2f := step2_vc_frame o.fetches s1.verificationCallId s1.record
  rw [← hs2] at h2f
  have hr0vc : r0.vc = initialVerificationCall := rfl
  rcases step4_spec o.transcriptOutcome s2 s2.record sd0 with ⟨_, heq⟩ | ⟨pct, _, htr, hcase⟩
  · rw [heq] at hresp
    exact absurd hresp (by simp)
  · rw [htr] at hresp
    have hp : pct = p := by simpa using hresp
    subst hp
    rcases hcase with ⟨_, heq⟩ | ⟨hc, _⟩
    · refine ⟨by rw [hflag, heq], ?_, ?_, ?_⟩
      · rw [hvc, heq]
        show s2.record.vc.verificationComplete = false
        rw [h2f.1, h1f.1, hr0vc]
        rfl
      · rw [hvc, heq]
        show s2.record.vc.additionalInfo = ""
        rw [h2f.2.1, h1f.2.1, hr0vc]
        rfl
      · rw [hvc, heq]
        show s2.record.vc.summary = ""
        rw [h2f.2.2, h1f.2.2, hr0vc]
        rfl
    · exact absurd hcorr hc

theorem empty_corrections_keep_defaults_witness :
    (uploadPipeline w9input w9oracles).transcriptResult = some w9pct ∧
    w9pct.success = true ∧ w9pct.corrections = [] ∧
    (uploadPipeline w9input w9oracles).analysisUpdateRan = false ∧
    (uploadPipeline w9input w9oracles).record.vc.verificationComplete = false ∧
    (uploadPipeline w9input w9oracles).record.vc.additionalInfo = "" ∧
    (uploadPipeline w9input w9oracles).record.vc.summary = "" := by
  have hres : (uploadPipeline w9input w9oracles).transcriptResult = some w9pct := by
    decide
  have h := empty_corrections_keep_defaults w9input w9oracles w9pct hres rfl rfl
  exact ⟨hres, rfl, rfl, h.1, h.2.1, h.2.2.1, h.2.2.2⟩

/-- C10: the verification-status read endpoint mutates the description
field: when its lazy refresh finds the call newly ended with transcript
data and the transcript analysis yields non-blank additionalInfo, the
update writes description as the prior description with an appended
Additional-info-from-verification line (just that line when the prior
description is empty), so a read-status request is not free of writes to
fields outside verificationCall and processingStatus. -/
theorem status_refresh_writes_description (r : HealthRecord) (cs : CallData)
    (t : TranscriptOutcome)
    (hreg : r.vc.status = "registered" ∨ r.vc.status = "ongoing")
    (hend : cs.status = "ended")
    (ht : hasTranscriptData cs = true)
    (hinfo : (processCallTranscript (some cs) t).additionalInfo ≠ "")
    (hinfot : strTrim ((processCallTranscript (some cs) t).additionalInfo) ≠ "") :
    (refreshStatusUpdate r (.ok cs) t).description =
      some (appendAdditionalInfo r.description
        ((processCallTranscript (some cs) t).additionalInfo)) ∧
    (r.description ≠ "" →
      appendAdditionalInfo r.description ((processCallTranscript (some cs) t).additionalInfo) =
        r.description ++ "\n\nAdditional info from verification: " ++
          (processCallTranscript (some cs) t).additionalInfo) := by
  constructor
  · have hne : ¬ cs.status = r.vc.status := by
      rcases hreg with h | h <;> rw [h, hend] <;> decide
    have hne2 : ¬("ended" = r.vc.status) := by
      rw [← hend]
      exact hne
    unfold refreshStatusUpdate
    rw [if_pos hreg]
    simp [hne, hne2, hend, ht, hinfo, hinfot]
  · intro hd
    unfold appendAdditionalInfo
    rw [if_pos hd]

theorem status_refresh_writes_description_witness :
    (refreshStatusUpdate w10rec (.ok w10cs) (.parsed w10tr)).description =
      some "Prior notes\n\nAdditional info from verification: Allergic to penicillin" := by
  have h := status_refresh_writes_description w10rec w10cs (.parsed w10tr)
    (Or.inl rfl) rfl (by decide) (by decide) (by decide)
  rw [h.1]
  have hd := h.2 (by decide)
  rw [hd]
  decide
